import Mathlib

/-!
A shallow embedding, in Lean 4, of the core of the `c-header-parser`
repository: the type-schema extractor (`TypeParser`) and the schema-driven
binary decoder (`DataReader`).  Every definition below is translated from the
C++ source (`TypeParser.cpp`, `DataReader.cpp`, `defines.h`, `utility.h`);
machine integers (`size_t`, `int`, `long`) are modelled as `Nat`/`Int` with
the wrap-around written out explicitly where the C++ conversions matter.
The worst-case target is a 32-bit system, matching the constants
`kWordSize_ = 4` and `kAlignment_ = 4` of the source.
-/

/-- `VariableDeclaration` from `defines.h`: one declared member or variable. -/
structure VariableDeclaration where
  data_type : String
  var_name : String
  array_size : Nat
  is_pointer : Bool
  var_size : Nat
deriving DecidableEq

/-- `enum TokenTypes` from `defines.h` (unused constructors kept for fidelity). -/
inductive TokenTypes where
  | kUnresolvedToken
  | kStructKeyword
  | kUnionKeyword
  | kEnumKeyword
  | kTypedefKeyword
  | kBasicDataType
  | kAbstractType
  | kComplexType
  | kQualifier
  | kStructName
  | kUnionName
  | kEnumName
deriving DecidableEq

/-- `TypeParser::kPaddingFieldName`. -/
def kPaddingFieldName : String := "_padding_field_"

/-- `TypeParser::kAlignment_` (alignment unit, 4 bytes on the 32-bit target). -/
def kAlignment : Nat := 4

/-- `TypeParser::kWordSize_` (machine word, 4 bytes). -/
def kWordSize : Nat := 4

/-- Lookup in an association list, mirroring `std::map::find`/`at`. -/
def lookupA {α : Type} : List (String × α) → String → Option α
  | [], _ => none
  | (k, v) :: rest, key => if k = key then some v else lookupA rest key

/-- Map assignment `m[key] = v` (overwrite when present, append when absent). -/
def setA {α : Type} : List (String × α) → String → α → List (String × α)
  | [], key, v => [(key, v)]
  | (k, w) :: rest, key, v =>
      if k = key then (key, v) :: rest else (k, w) :: setA rest key v

/-- `std::map::insert`: adds the pair only when the key is absent. -/
def insertA {α : Type} (l : List (String × α)) (key : String) (v : α) :
    List (String × α) :=
  if (lookupA l key).isSome then l else l ++ [(key, v)]

/-- The type registry of `TypeParser` (its five mutable maps). -/
structure TypeRegistry where
  struct_defs : List (String × List VariableDeclaration)
  union_defs : List (String × List VariableDeclaration)
  enum_defs : List (String × List (String × Int))
  type_sizes : List (String × Nat)
  const_defs : List (String × Int)
deriving DecidableEq

/-- The `basic_types_` set filled in `TypeParser::Initialize`. -/
def basicTypes : List String :=
  ["char", "short", "int", "size_t", "ssize_t", "long", "float", "double",
   "void", "bool", "__int64", "__WCHAR_T_TYPE__", "__SIZE_T_TYPE__",
   "__PTRDIFF_T_TYPE__"]

/-- The `qualifiers_` set filled in `TypeParser::Initialize`. -/
def qualifiersList : List String :=
  ["static", "const", "signed", "unsigned", "far", "extern", "volatile",
   "auto", "register", "inline", "__attribute__"]

/-- The `keywords_` map filled in `TypeParser::Initialize`. -/
def keywordsList : List (String × TokenTypes) :=
  [("struct", .kStructKeyword), ("union", .kUnionKeyword),
   ("enum", .kEnumKeyword), ("typedef", .kTypedefKeyword)]

/-- `type_sizes_` after `TypeParser::Initialize`: every basic type gets
`kWordSize_` and then the five overrides are applied. -/
def initTypeSizes : List (String × Nat) :=
  let base := basicTypes.foldl (fun acc t => setA acc t kWordSize) []
  setA (setA (setA (setA (setA base "void" 0) "char" 1) "short" 2) "bool" 1)
    "__WCHAR_T_TYPE__" 1

/-- The registry as it stands right after `TypeParser::Initialize`. -/
def initRegistry : TypeRegistry :=
  { struct_defs := [], union_defs := [], enum_defs := [],
    type_sizes := initTypeSizes, const_defs := [] }

/-- `TypeParser::GetTokenType`: classify a token against keywords, qualifiers,
basic types and the three user-defined maps, in the order of the source. -/
def getTokenType (reg : TypeRegistry) (token : String) : TokenTypes :=
  match lookupA keywordsList token with
  | some t => t
  | none =>
      if qualifiersList.contains token then .kQualifier
      else if basicTypes.contains token then .kBasicDataType
      else if (lookupA reg.struct_defs token).isSome then .kStructName
      else if (lookupA reg.union_defs token).isSome then .kUnionName
      else if (lookupA reg.enum_defs token).isSome then .kEnumName
      else .kUnresolvedToken

/-- `TypeParser::GetTypeSize`: size of a type, or `-1` when unknown (an `int`
in the source; enums have `sizeof(int) = 4`). -/
def getTypeSize (reg : TypeRegistry) (data_type : String) : Int :=
  match lookupA reg.type_sizes data_type with
  | some n => (n : Int)
  | none =>
      match lookupA reg.enum_defs data_type with
      | some _ => 4
      | none => -1

/-- `TypeParser::MakePadField`. -/
def makePadField (size : Nat) : VariableDeclaration :=
  { var_name := kPaddingFieldName, var_size := size, data_type := "char",
    array_size := 0, is_pointer := false }

/-- Loop body of `TypeParser::PadStructMembers`.  `acc` is the already
visited prefix of the member list (with the padding fields the loop inserted),
`total` and `last` are the `total` and `last_size` locals.  The result is the
final member list together with the returned total; `none` models the
`assert(1 == size)` abort.  The float expression
`ceil(last_size * 1.0 / kAlignment_) * kAlignment_` is exact for the run sizes
that reach it (1 or 2) and is written as natural ceiling division. -/
def padStructLoop :
    List VariableDeclaration → List VariableDeclaration → Nat → Nat →
    Option (List VariableDeclaration × Nat)
  | acc, [], total, _ => some (acc, total)
  | acc, m :: rest, total, last =>
    let size := m.var_size
    if size % kAlignment = 0 then
      if last > 0 then
        let align := ((last + kAlignment - 1) / kAlignment) * kAlignment
        padStructLoop (acc ++ [makePadField (align - last), m]) rest
          (total + align) 0
      else
        padStructLoop (acc ++ [m]) rest (total + size) 0
    else if size ≥ kAlignment then
      -- array-of-narrow-elements TODO / incorrect size: Error, return 0
      some (acc ++ m :: rest, 0)
    else if last = 0 then
      padStructLoop (acc ++ [m]) rest total size
    else if (size + last) % kAlignment = 0 then
      padStructLoop (acc ++ [m]) rest (total + size + last) 0
    else if last = 1 then
      if size = 1 then
        padStructLoop (acc ++ [m]) rest total (last + 1)
      else if size = 2 then
        padStructLoop (acc ++ [makePadField 1, m]) rest (total + kAlignment) 0
      else
        some (acc ++ m :: rest, 0)    -- Error("Bad member size"), return 0
    else if last = 2 then
      if size = 1 then
        -- members.insert(++it, MakePadField(1)): the pad goes after m
        padStructLoop (acc ++ [m, makePadField 1]) rest (total + kAlignment) 0
      else
        none                          -- assert(1 == size) fails
    else
      some (acc ++ m :: rest, 0)      -- Error("Bad alignment"), return 0

/-- `TypeParser::PadStructMembers`: pads the member list and returns the
computed struct size (`none` models the assertion abort). -/
def padStructMembers (members : List VariableDeclaration) :
    Option (List VariableDeclaration × Nat) :=
  padStructLoop [] members 0 0

/-- `TypeParser::CalcUnionSize`: max member size, rounded up to the alignment
unit when not already a multiple of it. -/
def calcUnionSize (members : List VariableDeclaration) : Nat :=
  let size := members.foldl (fun acc m => max acc m.var_size) 0
  if size % kAlignment ≠ 0 then
    ((size + kAlignment - 1) / kAlignment) * kAlignment
  else size

/-- `TypeParser::StoreStructUnionDef`: run the layout calculator, then store
the (possibly padded) members and the computed size.  `none` models the
assertion abort inside `PadStructMembers`. -/
def storeStructUnionDef (reg : TypeRegistry) (is_struct : Bool)
    (type_name : String) (members : List VariableDeclaration) :
    Option TypeRegistry :=
  if is_struct then
    (padStructMembers members).map fun p =>
      { reg with struct_defs := setA reg.struct_defs type_name p.1,
                 type_sizes := setA reg.type_sizes type_name p.2 }
  else
    let size := calcUnionSize members
    some { reg with union_defs := setA reg.union_defs type_name members,
                    type_sizes := setA reg.type_sizes type_name size }

/-- Sum of the `var_size` fields of a member list (the quantity the spec
compares against the layout calculator result). -/
def sumVarSizes (members : List VariableDeclaration) : Nat :=
  (members.map (fun m => m.var_size)).sum

/-- C `isspace` on the characters that can occur here. -/
def isSpaceC (c : Char) : Bool :=
  c = ' ' || c = '\t' || c = '\n' || c = '\x0b' || c = '\x0c' || c = '\r'

/-- Membership in `TypeParser::kTokenDelimiters`
(`" \t#\x7b[(<&|*>)]\x7d?\x27:\",%!=/;+*$"`). -/
def isDelimC (c : Char) : Bool :=
  c = ' ' || c = '\t' || c = '#' || c = '\x7b' || c = '[' || c = '(' ||
  c = '<' || c = '&' || c = '|' || c = '*' || c = '>' || c = ')' ||
  c = ']' || c = '\x7d' || c = '?' || c = '\x27' || c = ':' || c = '\"' ||
  c = ',' || c = '%' || c = '!' || c = '=' || c = '/' || c = ';' ||
  c = '+' || c = '$'

/-- Raw token stream of `TypeParser::GetNextToken(src, pos, token, ...)`
iterated to the end of the text: skip blanks and the `EOL` marker `$`, then
either take one delimiter character as a token or the maximal run of
non-delimiter characters.  The explicit bound plays the role of the loop
variable; it exceeds every possible number of iterations. -/
def strTokensAux : Nat → List Char → List String
  | 0, _ => []
  | fuel + 1, cs =>
      let cs1 := cs.dropWhile (fun c => isSpaceC c || c = '$')
      match cs1 with
      | [] => []
      | c :: rest =>
          if isDelimC c then
            String.mk [c] :: strTokensAux fuel rest
          else
            let tok := (c :: rest).takeWhile (fun d => !(isDelimC d))
            String.mk tok :: strTokensAux fuel ((c :: rest).drop tok.length)

/-- All tokens of a text, in order (raw, qualifiers not yet dropped). -/
def strTokens (cs : List Char) : List String :=
  strTokensAux (cs.length + 1) cs

/-- `TypeParser::SplitLineIntoTokens`: the token sequence of a line; the
`GetNextToken` loop silently drops the qualifiers of `qualifiers_`. -/
def splitLineIntoTokens (line : String) : List String :=
  (strTokens line.toList).filter (fun t => !(qualifiersList.contains t))

/-- Numeric value of a hex digit, if any. -/
def hexDigitVal (c : Char) : Option Nat :=
  if '0' ≤ c ∧ c ≤ '9' then some (c.toNat - 48)
  else if 'a' ≤ c ∧ c ≤ 'f' then some (c.toNat - 87)
  else if 'A' ≤ c ∧ c ≤ 'F' then some (c.toNat - 55)
  else none

/-- Digit value in a given base (bases 8, 10, 16 are used). -/
def digitInBase (base : Nat) (c : Char) : Option Nat :=
  match hexDigitVal c with
  | some d => if d < base then some d else none
  | none => none

/-- Value of the leading digit run of `cs` in the given base. -/
def digitsValue (base : Nat) (cs : List Char) : Nat :=
  (cs.takeWhile (fun c => (digitInBase base c).isSome)).foldl
    (fun acc c => acc * base + ((digitInBase base c).getD 0)) 0

/-- Clamp to `long` range (4-byte `long` on the 32-bit target). -/
def clampLong (n : Int) : Int :=
  if n > (2147483647 : Int) then 2147483647
  else if n < (-2147483648 : Int) then -2147483648
  else n

/-- `strtol(token, NULL, 0)`: optional sign, then hex with `0x`/`0X`, octal
with leading `0`, or decimal; the longest valid digit run counts and an empty
run yields 0. -/
def strtol0 (s : String) : Int :=
  let cs := s.toList.dropWhile isSpaceC
  let signed : Int × List Char :=
    match cs with
    | '-' :: r => (-1, r)
    | '+' :: r => (1, r)
    | _ => (1, cs)
  let mag : Nat :=
    match signed.2 with
    | '0' :: 'x' :: r => digitsValue 16 r
    | '0' :: 'X' :: r => digitsValue 16 r
    | '0' :: r => digitsValue 8 r
    | cs1 => digitsValue 10 cs1
  clampLong (signed.1 * (mag : Int))

/-- `TypeParser::IsNumericToken`: a token is numeric when `strtol` yields a
nonzero value, or when it is a recorded constant; the returned pair is
`(ret, number)`.  A token whose `strtol` value is 0 — including the literal
`"0"` — is only numeric when it is itself a recorded constant name. -/
def isNumericToken (const_defs : List (String × Int)) (token : String) :
    Bool × Int :=
  if token = "" then (false, 0)
  else
    let number := strtol0 token
    if number = 0 then
      match lookupA const_defs token with
      | some v => (true, v)
      | none => (false, 0)
    else (true, number)

/-- Outcome of a C++ parsing routine: normal result, `return false`, or an
aborted run (failed `assert` / out-of-bounds `std::vector` access). -/
inductive ParseResult (α : Type) where
  | ok (val : α)
  | fail
  | abort
deriving DecidableEq

/-- First character of a token (`token.at(0)`). -/
def firstChar (s : String) : Char := s.toList.headD (Char.ofNat 0)

/-- `size_t` on the 32-bit target. -/
def SIZE_T_MOD : Nat := 4294967296

/-- Conversion of a C integer value to `size_t` (wrap modulo `2^32`). -/
def toSizeT (n : Int) : Nat := (n.emod (4294967296 : Int)).toNat

/-- `TypeParser::ParseDeclaration`.  The line must end in `;`; the token
count must be at least 3 (`assert`); the first token is the type, whose size
comes from `GetTypeSize` and is stored into a `size_t` — so the `-1` of an
unknown type becomes `2^32 - 1` and the `0 == length` test only catches
`void`; then optional `*`, the name, and an optional bracketed numeric array
size. -/
def parseDeclaration (reg : TypeRegistry) (line : String) :
    ParseResult VariableDeclaration :=
  if line = "" then .abort
  else if line.toList.getLast? ≠ some ';' then .fail
  else
    let tokens := splitLineIntoTokens line
    if tokens.length < 3 then .abort
    else
      let data_type := tokens.headD ""
      let length0 : Nat := toSizeT (getTypeSize reg data_type)
      if length0 = 0 then .fail
      else
        let is_pointer := firstChar (tokens.getD 1 "") = '*'
        let length1 : Nat := if is_pointer then kWordSize else length0
        let nameIdx := if is_pointer then 2 else 1
        let var_name := tokens.getD nameIdx ""
        if nameIdx + 1 ≥ tokens.length then .abort
        else if firstChar (tokens.getD (nameIdx + 1) "") = '[' then
          if nameIdx + 2 ≥ tokens.length then .abort
          else
            match isNumericToken reg.const_defs (tokens.getD (nameIdx + 2) "") with
            | (true, number) =>
                let array_size := toSizeT number
                .ok ⟨data_type, var_name, array_size, is_pointer,
                     (length1 * array_size) % SIZE_T_MOD⟩
            | (false, _) => .fail
        else
          .ok ⟨data_type, var_name, 0, is_pointer, length1⟩

/-- The bytes `string(data_ptr_, len)` reads at offset `ptr`.  Reads past the
buffer end are raw memory reads in the C++ (the source only logs a "bad data
offset" once the cursor is out of range); they are modelled as 0 bytes and
the claims below only exercise in-bounds reads. -/
def readBytes (buf : List Nat) (ptr len : Nat) : List Nat :=
  (List.range len).map (fun i => buf.getD (ptr + i) 0)

/-- Lower-case two-digit hex rendering of one byte (`utility.h`, `tohex`). -/
def byteToHex (b : Nat) : String :=
  let digs := "0123456789abcdef".toList
  String.mk [digs.getD ((b % 256) / 16) '0', digs.getD (b % 16) '0']

/-- `tohex` from `utility.h` with its default arguments: `"0x"` followed by
the bytes rendered last-to-first (little-endian display).  The C++ behaviour
on an empty string is undefined (it converts a null pointer); modelled as an
empty result, never reached by the claims. -/
def tohex (data : List Nat) : String :=
  if data = [] then ""
  else "0x" ++ String.join ((data.reverse).map byteToHex)

/-- Value of a byte list read little-endian (what
`strtol(tohex(data), NULL, 16)` computes before clamping). -/
def bytesToNatLE (data : List Nat) : Nat :=
  data.foldr (fun b acc => acc * 256 + b % 256) 0

/-- Truncation of a C `long` value to `int` (32-bit, two's complement). -/
def toInt32 (n : Int) : Int :=
  let m := n.emod (4294967296 : Int)
  if m ≥ (2147483648 : Int) then m - 4294967296 else m

/-- The value line `DataReader::PrintVarValue` emits: the decimal integer,
the hex string, and the optional third component (enum label or quoted
char).  The `setw(3)` right-justification of the decimal is display-only and
not modelled. -/
structure ValueLine where
  dec : Int
  hexStr : String
  tail : Option String
deriving DecidableEq

/-- The enum-label loop of `DataReader::PrintVarValue`: first pair whose
value equals the decoded integer, `"Unknown"` when none matches. -/
def resolveEnumLabel (enums : List (String × Int)) (v : Int) : String :=
  match enums with
  | [] => "Unknown"
  | (name, value) :: rest =>
      if v = value then name else resolveEnumLabel rest v

/-- The char printed for a nonzero `char` field:
`(char)('A' + (int_value - (int)'A'))`, i.e. the `int` value truncated to a
byte. -/
def charOfInt (v : Int) : Char := Char.ofNat ((v.emod 256).toNat)

/-- `DataReader::PrintVarValue`: read 1 byte for a `char` field and
`var_size` bytes otherwise, render decimal plus little-endian hex, append an
enum label (`!is_union` and the type is a registered enum) or a quoted char
(`char` type with nonzero value), and advance the cursor by the read length
unless inside a union.  `strtol(hex, NULL, 16)` is the little-endian byte
value clamped to `long` and truncated to `int`. -/
def printVarValue (enum_defs : List (String × List (String × Int)))
    (buf : List Nat) (ptr : Nat) (v : VariableDeclaration) (is_union : Bool) :
    ValueLine × Nat :=
  let len : Nat := if v.data_type = "char" then 1 else v.var_size
  let data := readBytes buf ptr len
  let hexStr := tohex data
  let intValue : Int := toInt32 (clampLong (bytesToNatLE data))
  let tail : Option String :=
    if !is_union && (lookupA enum_defs v.data_type).isSome then
      some (", " ++
        resolveEnumLabel ((lookupA enum_defs v.data_type).getD []) intValue)
    else if v.data_type = "char" && intValue ≠ 0 then
      some (", \x27" ++ String.mk [charOfInt intValue] ++ "\x27")
    else none
  (⟨intValue, hexStr, tail⟩, if is_union then ptr else ptr + len)

/-- Rendering of a `ValueLine` into the output stream (without the field
width padding of `setw`). -/
def renderValueLine (vl : ValueLine) : String :=
  toString vl.dec ++ ", " ++ vl.hexStr ++ (vl.tail.getD "")

/-- One pending activation of the mutually recursive printing routines of
`DataReader`: `PrepareTypeData` (a struct/union by name), the member loop of
`PrintMemberData` (which remembers `union_addr`, the cursor value when the
loop started), the array element loop, and `PrintVarData` for one field. -/
inductive DecodeJob where
  | typeData (type_name : String) (is_union : Bool)
  | memberLoop (members : List VariableDeclaration) (is_union : Bool)
      (union_addr : Nat)
  | arrayElems (v : VariableDeclaration) (k : Nat)
  | varData (v : VariableDeclaration) (is_union : Bool)
deriving DecidableEq

/-- Decoder state: the emitted output pieces and the cursor offset
(`data_ptr_ - data_buffer_`). -/
structure DecodeState where
  out : List String
  ptr : Nat
deriving DecidableEq

/-- Append one piece to the output stream. -/
def emitS (st : DecodeState) (s : String) : DecodeState :=
  { st with out := st.out ++ [s] }

/-- The recursive printing core of `DataReader` (`PrepareTypeData`,
`PrintMemberData`, `PrintVarData`, `PrintVarValue`), driven by an explicit
recursion bound that exceeds the depth of every run appearing below.
Indentation, which only pads the output, is not modelled; neither is the
advisory top-level size check.  The anonymous-type-name suppression of the
output header does not affect any claim and is omitted. -/
def decodeStep (reg : TypeRegistry) (buf : List Nat) :
    Nat → DecodeJob → DecodeState → DecodeState
  | 0, _, st => st
  | fuel + 1, job, st =>
    match job with
    | .typeData name isU =>
        let membersO :=
          if isU && (lookupA reg.union_defs name).isSome then
            lookupA reg.union_defs name
          else lookupA reg.struct_defs name
        match membersO with
        | none => emitS st ("Unknown struct/union: " ++ name)
        | some members =>
            let st1 := emitS st
              ((if isU then "union " else "struct ") ++ name ++ " \x7b")
            let st2 := decodeStep reg buf fuel (.memberLoop members isU st1.ptr) st1
            emitS st2 "\x7d"
    | .memberLoop [] _ _ => st
    | .memberLoop (m :: rest) isU ua =>
        if !isU && m.var_name = kPaddingFieldName then
          decodeStep reg buf fuel (.memberLoop rest isU ua)
            { st with ptr := st.ptr + m.var_size }
        else
          let st1 := if isU then { st with ptr := ua } else st
          let st2 :=
            if m.array_size ≠ 0 then
              let stA := emitS st1 (m.var_name ++ " = [")
              let stB := decodeStep reg buf fuel (.arrayElems m m.array_size) stA
              emitS stB "]"
            else
              decodeStep reg buf fuel (.varData m isU)
                (emitS st1 (m.var_name ++ " = "))
          decodeStep reg buf fuel (.memberLoop rest isU ua) st2
    | .arrayElems _ 0 => st
    | .arrayElems v (k + 1) =>
        let st1 := emitS st ("[" ++ toString (v.array_size - (k + 1)) ++ "] = ")
        let st2 := decodeStep reg buf fuel (.varData v false) st1
        decodeStep reg buf fuel (.arrayElems v k) st2
    | .varData v isU =>
        match getTokenType reg v.data_type with
        | .kBasicDataType =>
            let r := printVarValue reg.enum_defs buf st.ptr v isU
            { emitS st (renderValueLine r.1) with ptr := r.2 }
        | .kStructName => decodeStep reg buf fuel (.typeData v.data_type false) st
        | .kUnionName => decodeStep reg buf fuel (.typeData v.data_type true) st
        | .kEnumName =>
            let r := printVarValue reg.enum_defs buf st.ptr v false
            { emitS st (renderValueLine r.1) with ptr := r.2 }
        | _ => emitS st ("Unresolved data type - " ++ v.data_type)

/-- `TypeParser::ParseEnumDeclaration`, switching on the token count of the
member line: bare label, label + comma, label `=` number, or label `=`
number + comma.  The result carries the `(label, value)` pair, the updated
`last_value`, and the `is_last_member` flag; `.abort` models the failing
`assert`s on the separator tokens, `.fail` the `return false` paths.  The
explicit value is `static_cast<int>(number)`. -/
def parseEnumDeclarationTokens (const_defs : List (String × Int))
    (tokens : List String) (last_value : Int) :
    ParseResult ((String × Int) × Int × Bool) :=
  match tokens with
  | [l] => .ok ((l, last_value + 1), last_value + 1, true)
  | [l, c] =>
      if firstChar c = ',' then .ok ((l, last_value + 1), last_value + 1, false)
      else .abort
  | [l, e, n] =>
      if firstChar e = '=' then
        match isNumericToken const_defs n with
        | (true, number) => .ok ((l, toInt32 number), toInt32 number, true)
        | (false, _) => .fail
      else .abort
  | [l, e, n, c] =>
      if firstChar e = '=' ∧ firstChar c = ',' then
        match isNumericToken const_defs n with
        | (true, number) => .ok ((l, toInt32 number), toInt32 number, false)
        | (false, _) => .fail
      else .abort
  | _ => .fail

/-- `TypeParser::ParseEnumDeclaration` on a source line (the source calls
`SplitLineIntoTokens` first). -/
def parseEnumDeclarationLine (const_defs : List (String × Int)) (line : String)
    (last_value : Int) : ParseResult ((String × Int) × Int × Bool) :=
  parseEnumDeclarationTokens const_defs (splitLineIntoTokens line) last_value

/-- The member loop of `TypeParser::ParseEnum` over the lines of an enum
body (given as token lists), starting from `last_value` and the
`is_last_member` flag: a member after one that used a last-member-only form
is an error, as is any line the member parser rejects. -/
def runEnumBody (const_defs : List (String × Int)) :
    List (List String) → Int → Bool → Option (List (String × Int))
  | [], _, _ => some []
  | toks :: rest, last_value, is_last_member =>
      if is_last_member then none
      else
        match parseEnumDeclarationTokens const_defs toks last_value with
        | .ok (decl, last', lastFlag) =>
            match runEnumBody const_defs rest last' lastFlag with
            | some ds => some (decl :: ds)
            | none => none
        | _ => none

/-- The `define` arm of `TypeParser::ParsePreProcDirective`, as its effect on
`const_defs_`, over the tokens of the directive line after `#`.  A `define`
with a numeric (or known-constant) value inserts — `std::map::insert`, no
overwrite — the pair; otherwise the line is skipped and the map unchanged.
`none` models the failed `assert` when `NAME` is missing; the `include` arms
read files and are covered by the parse-file model below. -/
def parsePreProcDefine (const_defs : List (String × Int))
    (tokens : List String) : Option (List (String × Int)) :=
  match tokens with
  | "define" :: name :: value :: _ =>
      match isNumericToken const_defs value with
      | (true, number) => some (insertA const_defs name number)
      | (false, _) => some const_defs
  | ["define", _] => some const_defs
  | ["define"] => none
  | _ => some const_defs

/-- A statement of a header file, as far as `TypeParser::ParseFile` and the
include handling of `ParsePreProcDirective` are concerned: an
`#include "..."` directive (parsed recursively, depth-first), or any
type-registering statement, abstracted to the name and size it stores. -/
inductive HeaderStmt where
  | includeQuoted (file : String)
  | registerType (name : String) (size : Nat)
deriving DecidableEq

/-- The state `ParseFile` mutates: the visited map `header_files_` and the
registry, abstracted to `type_sizes_`. -/
structure ParserFileState where
  headerFiles : List (String × Bool)
  typeSizes : List (String × Nat)
deriving DecidableEq

/-- One pending activation of the recursive file parsing of `TypeParser`:
`ParseFile` on a path, or the statement loop of `ParseSource` (restricted to
the effects relevant here: an include recurses into `ParseFile` in place,
any other statement registers its type). -/
inductive ParseJob where
  | file (f : String)
  | stmts (l : List HeaderStmt)
deriving DecidableEq

/-- `TypeParser::ParseFile` / `ParseSource` over an abstract file system
(a map from path to parsed statements; `none` is a file that fails to open):
a path already flagged in `header_files_` is skipped, otherwise it is
flagged true before its contents are parsed.  The explicit bound exceeds
the number of files and statements of every run below. -/
def parseRun (fs : String → Option (List HeaderStmt)) :
    Nat → ParseJob → ParserFileState → ParserFileState
  | 0, _, st => st
  | fuel + 1, .file f, st =>
      if lookupA st.headerFiles f = some true then st
      else
        match fs f with
        | none => st
        | some l =>
            parseRun fs fuel (.stmts l)
              { st with headerFiles := setA st.headerFiles f true }
  | _ + 1, .stmts [], st => st
  | fuel + 1, .stmts (stmt :: rest), st =>
      let st1 :=
        match stmt with
        | .includeQuoted f => parseRun fs fuel (.file f) st
        | .registerType n sz => { st with typeSizes := setA st.typeSizes n sz }
      parseRun fs fuel (.stmts rest) st1

/-- `TypeParser::ParseFile` on one path. -/
def parseFile (fs : String → Option (List HeaderStmt)) (fuel : Nat)
    (st : ParserFileState) (file : String) : ParserFileState :=
  parseRun fs fuel (.file file) st

def exC1Members : List VariableDeclaration :=
  [⟨"char", "c", 0, false, 1⟩, ⟨"int", "i", 0, false, 4⟩]

def exC1Padded : List VariableDeclaration :=
  [⟨"char", "c", 0, false, 1⟩, makePadField 3, ⟨"int", "i", 0, false, 4⟩]

def exC3UnionMembers : List VariableDeclaration := [⟨"int", "a", 0, false, 4⟩]

def exC3StructMembers : List VariableDeclaration :=
  [⟨"U", "u", 0, false, 4⟩, ⟨"int", "x", 0, false, 4⟩]

def regC3 : TypeRegistry :=
  ((storeStructUnionDef initRegistry false "U" exC3UnionMembers).bind
    (fun r => storeStructUnionDef r true "S" exC3StructMembers)).getD initRegistry

def bufC3 : List Nat := [1, 0, 0, 0, 2, 0, 0, 0]

def runC3 : DecodeState := decodeStep regC3 bufC3 32 (.typeData "S" false) ⟨[], 0⟩

def exC4Members : List VariableDeclaration := [⟨"int", "arr", 2, false, 8⟩]

def regC4 : TypeRegistry :=
  (storeStructUnionDef initRegistry true "A" exC4Members).getD initRegistry

def bufC4 : List Nat :=
  [1, 0, 0, 0, 2, 0, 0, 0, 3, 0, 0, 0, 4, 0, 0, 0]

def runC4 : DecodeState := decodeStep regC4 bufC4 32 (.typeData "A" false) ⟨[], 0⟩

/-- An abstract enum body: each member is a label together with an optional
explicit value, given as the value token of the source text and the number it
denotes. -/
def renderEnumToks :
    List (String × Option (String × Int)) → List (List String)
  | [] => []
  | [(l, none)] => [[l]]
  | [(l, some (t, _))] => [[l, "=", t]]
  | (l, none) :: rest => [l, ","] :: renderEnumToks rest
  | (l, some (t, _)) :: rest => [l, "=", t, ","] :: renderEnumToks rest

/-- The values the spec assigns to an enum body: an implicit member gets the
previous value plus one, an explicit member gets its own value and resets the
counter. -/
def specEnumValuesFrom (prev : Int) :
    List (String × Option (String × Int)) → List (String × Int)
  | [] => []
  | (l, none) :: rest => (l, prev + 1) :: specEnumValuesFrom (prev + 1) rest
  | (l, some (_, n)) :: rest => (l, n) :: specEnumValuesFrom n rest

def exC6Body : List (String × Option (String × Int)) :=
  [("Hebei", none), ("Anhui", some ("9", 9)), ("Beijing", none),
   ("Zhejiang", none)]

def homeEnums : List (String × Int) :=
  [("Anhui", 1), ("Beijing", 9), ("Shanghai", 10), ("Zhejiang", 33)]

/-- A circular pair of headers: `a.h` includes `b.h` and registers type `A`;
`b.h` includes `a.h` back and registers type `B`. -/
def circFS : String → Option (List HeaderStmt) := fun f =>
  if f = "a.h" then
    some [.includeQuoted "b.h", .registerType "A" 4]
  else if f = "b.h" then
    some [.includeQuoted "a.h", .registerType "B" 8]
  else none

def initPFS : ParserFileState := ⟨[], []⟩

theorem lookupA_setA_self {α : Type} (l : List (String × α)) (k : String) (v : α) :
    lookupA (setA l k v) k = some v := by
  induction l with
  | nil => simp [setA, lookupA]
  | cons h t ih =>
      by_cases hk : h.1 = k
      · simp [setA, hk, lookupA]
      · simpa [setA, hk, lookupA] using ih

theorem lookupA_setA_ne {α : Type} (l : List (String × α)) (k k' : String) (v : α)
    (h : k ≠ k') : lookupA (setA l k v) k' = lookupA l k' := by
  induction l with
  | nil => simp [setA, lookupA, h]
  | cons hd t ih =>
      obtain ⟨k0, v0⟩ := hd
      by_cases hk : k0 = k
      · simp [setA, hk, lookupA, h, Ne.symm h]
      · by_cases hk' : k0 = k'
        · simp [setA, hk, lookupA, hk', Ne.symm h]
        · simpa [setA, hk, lookupA, hk'] using ih

/-- C1: the claim fails on the code.  For the two-member struct
`{ char c; int i; }` the layout calculator inserts the 3-byte padding field,
so the final member list totals 8 bytes, but the branch that closes a pending
run on an aligned member adds only the flushed run (`total += align_size`)
and forgets the aligned member's own size: `PadStructMembers` returns 4, and
`StoreStructUnionDef` records 4 as the struct's size, which differs from the
sum of the stored members' `var_size` fields. -/
theorem claim_C1_counterexample :
    padStructMembers exC1Members = some (exC1Padded, 4) ∧
    sumVarSizes exC1Padded = 8 ∧
    (storeStructUnionDef initRegistry true "S1" exC1Members).map
      (fun r => (lookupA r.type_sizes "S1", lookupA r.struct_defs "S1")) =
      some (some 4, some exC1Padded) ∧
    (4 : Nat) ≠ 8 := by
  refine ⟨by decide, by decide, by decide, by decide⟩

theorem foldl_max_init_le (ms : List VariableDeclaration) :
    ∀ a : Nat, a ≤ ms.foldl (fun acc m => max acc m.var_size) 0 + a := by
  -- only a helper shape; the useful statements follow
  intro a; exact Nat.le_add_left a _

theorem le_foldlMax_of_init (ms : List VariableDeclaration) :
    ∀ a : Nat, a ≤ ms.foldl (fun acc m => max acc m.var_size) a := by
  induction ms with
  | nil => intro a; exact Nat.le_refl a
  | cons hd t ih =>
      intro a
      exact Nat.le_trans (Nat.le_max_left a hd.var_size) (ih (max a hd.var_size))

theorem mem_le_foldlMax (ms : List VariableDeclaration) :
    ∀ (a : Nat) (m : VariableDeclaration), m ∈ ms →
      m.var_size ≤ ms.foldl (fun acc m => max acc m.var_size) a := by
  induction ms with
  | nil => intro a m h; cases h
  | cons hd t ih =>
      intro a m h
      rcases List.mem_cons.mp h with h1 | h2
      · subst h1
        exact Nat.le_trans (Nat.le_max_right a m.var_size)
          (le_foldlMax_of_init t (max a m.var_size))
      · exact ih (max a hd.var_size) m h2

theorem foldlMax_le (ms : List VariableDeclaration) :
    ∀ (a k : Nat), a ≤ k → (∀ m ∈ ms, m.var_size ≤ k) →
      ms.foldl (fun acc m => max acc m.var_size) a ≤ k := by
  induction ms with
  | nil => intro a k ha _; exact ha
  | cons hd t ih =>
      intro a k ha hall
      refine ih (max a hd.var_size) k ?_ ?_
      · exact Nat.max_le.mpr ⟨ha, hall hd (List.mem_cons_self hd t)⟩
      · intro m hm; exact hall m (List.mem_cons_of_mem hd hm)

/-- C2: `CalcUnionSize` returns the least multiple of the alignment unit (4)
that bounds every member's `var_size` — the maximum member size rounded up —
it returns 0 on an empty member list, and `StoreStructUnionDef` records
exactly this value as the union's size while storing the member list
unchanged. -/
theorem claim_C2_union_size :
    calcUnionSize [] = 0 ∧
    (∀ ms : List VariableDeclaration,
      calcUnionSize ms % kAlignment = 0 ∧
      (∀ m ∈ ms, m.var_size ≤ calcUnionSize ms) ∧
      (∀ k : Nat, k % kAlignment = 0 → (∀ m ∈ ms, m.var_size ≤ k) →
        calcUnionSize ms ≤ k)) ∧
    (∀ (reg : TypeRegistry) (name : String) (ms : List VariableDeclaration),
      ∃ reg', storeStructUnionDef reg false name ms = some reg' ∧
        lookupA reg'.type_sizes name = some (calcUnionSize ms) ∧
        lookupA reg'.union_defs name = some ms) := by
  refine ⟨by decide, ?_, ?_⟩
  · intro ms
    set s := ms.foldl (fun acc m => max acc m.var_size) 0 with hs
    by_cases h4 : s % kAlignment = 0
    · have hval : calcUnionSize ms = s := by
        simp [calcUnionSize, ← hs, h4]
      refine ⟨by rw [hval]; exact h4, ?_, ?_⟩
      · intro m hm; rw [hval]; exact mem_le_foldlMax ms 0 m hm
      · intro k _ hk; rw [hval]
        exact foldlMax_le ms 0 k (Nat.zero_le k) hk
    · have hval : calcUnionSize ms =
          ((s + kAlignment - 1) / kAlignment) * kAlignment := by
        simp [calcUnionSize, ← hs, h4]
      have hup : s ≤ ((s + kAlignment - 1) / kAlignment) * kAlignment := by
        simp only [kAlignment]; omega
      refine ⟨?_, ?_, ?_⟩
      · rw [hval]; exact Nat.mul_mod_left _ _
      · intro m hm; rw [hval]
        exact Nat.le_trans (mem_le_foldlMax ms 0 m hm) hup
      · intro k hkmod hk
        have hsk : s ≤ k := foldlMax_le ms 0 k (Nat.zero_le k) hk
        rw [hval]; simp only [kAlignment] at hkmod ⊢; omega
  · intro reg name ms
    refine ⟨_, rfl, ?_, ?_⟩
    · simp [storeStructUnionDef, lookupA_setA_self]
    · simp [storeStructUnionDef, lookupA_setA_self]

/-- Witness for C2 at a concrete union: two members of sizes 1 and 2 give
size 4, recorded by the store routine. -/
theorem claim_C2_union_size_witness :
    ∃ reg', storeStructUnionDef initRegistry false "U0"
        [⟨"char", "c", 0, false, 1⟩, ⟨"short", "s", 0, false, 2⟩] = some reg' ∧
      lookupA reg'.type_sizes "U0" =
        some (calcUnionSize
          [⟨"char", "c", 0, false, 1⟩, ⟨"short", "s", 0, false, 2⟩]) ∧
      lookupA reg'.union_defs "U0" =
        some [⟨"char", "c", 0, false, 1⟩, ⟨"short", "s", 0, false, 2⟩] :=
  claim_C2_union_size.2.2 initRegistry "U0"
    [⟨"char", "c", 0, false, 1⟩, ⟨"short", "s", 0, false, 2⟩]

/-- C3: the claim fails on the code.  In the registry built by the store
routine, `struct S { union U u; int x; }` with `union U { int a; }` has
union size 4 and struct size 8; decoding 8 bytes `01 00 00 00 02 00 00 00`
leaves the cursor at 4, not 8, after the whole struct: no caller ever
advances the cursor past the union (a union member read with the union flag
set does not advance, and `PrintVarData`'s union branch returns with the
cursor still at the union's start), so the scalar `x` is decoded from the
union's own bytes at offset 0 (value 1) instead of offset 4 (value 2), and
the final cursor is 4 = only the advance of `x`, not
union offset + union size + 4 = 8. -/
theorem claim_C3_counterexample :
    (storeStructUnionDef initRegistry false "U" exC3UnionMembers).bind
      (fun r => storeStructUnionDef r true "S" exC3StructMembers) = some regC3 ∧
    lookupA regC3.type_sizes "U" = some 4 ∧
    lookupA regC3.type_sizes "S" = some 8 ∧
    runC3.ptr = 4 ∧
    runC3.out = ["struct S \x7b", "u = ", "union U \x7b", "a = ",
      "1, 0x00000001", "\x7d", "x = ", "1, 0x00000001", "\x7d"] ∧
    (4 : Nat) ≠ 0 + 4 + 4 := by
  refine ⟨by decide, by decide, by decide, by decide, by decide, by decide⟩

/-- C4: the claim fails on the code.  For `struct A { int arr[2]; }` (field
`var_size` 8, `array_size` 2) the decoder does perform exactly 2 element
reads, but each iteration passes the whole field descriptor to the value
printer, which reads and advances by the field's full `var_size` (8), not by
the element size (4): a single element read from offset 0 already moves the
cursor to 8, and after the field the cursor is at 16, double the field's
total byte size. -/
theorem claim_C4_counterexample :
    storeStructUnionDef initRegistry true "A" exC4Members = some regC4 ∧
    lookupA regC4.type_sizes "A" = some 8 ∧
    runC4.ptr = 16 ∧
    runC4.out = ["struct A \x7b", "arr = [", "[0] = ",
      "2147483647, 0x0000000200000001", "[1] = ",
      "2147483647, 0x0000000400000003", "]", "\x7d"] ∧
    (printVarValue [] bufC4 0 ⟨"int", "arr", 2, false, 8⟩ false).2 = 8 ∧
    (16 : Nat) ≠ 8 := by
  refine ⟨by decide, by decide, by decide, by decide, by decide, by decide⟩

/-- C5: the claim fails on the code.  `ParseDeclaration` succeeds on a
declaration whose type is not registered: `GetTypeSize` returns `-1` for the
unknown type `Foo`, the value is stored into a `size_t` (becoming
`2^32 - 1`), and the guard `0 == length` — whose message says "Unknown data
type" — does not fire; the parse returns success with the wrapped size.  The
guard instead fires on the registered zero-sized type `void`, so `void v;`
fails although its type is in the registry. -/
theorem claim_C5_counterexample :
    parseDeclaration initRegistry "Foo x;" =
      .ok ⟨"Foo", "x", 0, false, 4294967295⟩ ∧
    getTokenType initRegistry "Foo" = .kUnresolvedToken ∧
    getTypeSize initRegistry "Foo" = -1 ∧
    (splitLineIntoTokens "Foo x;").length = 3 ∧
    lookupA initRegistry.type_sizes "void" = some 0 ∧
    parseDeclaration initRegistry "void v;" = .fail := by
  refine ⟨by decide, by decide, by decide, by decide, by decide, by decide⟩

theorem runEnumBody_renders (cd : List (String × Int))
    (ms : List (String × Option (String × Int)))
    (h : ∀ l t n, (l, some (t, n)) ∈ ms →
      isNumericToken cd t = (true, n) ∧ toInt32 n = n) :
    ∀ prev : Int,
      runEnumBody cd (renderEnumToks ms) prev false =
        some (specEnumValuesFrom prev ms) := by
  induction ms with
  | nil => intro prev; simp [renderEnumToks, runEnumBody, specEnumValuesFrom]
  | cons hd rest ih =>
      obtain ⟨l, e⟩ := hd
      have hcomma : firstChar "," = ',' := by decide
      have hequal : firstChar "=" = '=' := by decide
      cases rest with
      | nil =>
          intro prev
          cases e with
          | none =>
              simp [renderEnumToks, runEnumBody, parseEnumDeclarationTokens,
                specEnumValuesFrom]
          | some tn =>
              obtain ⟨t, n⟩ := tn
              obtain ⟨hnum, hrange⟩ := h l t n (by simp)
              simp [renderEnumToks, runEnumBody, parseEnumDeclarationTokens,
                hequal, hnum, hrange, specEnumValuesFrom]
      | cons hd2 rest2 =>
          intro prev
          have hrec := ih (by
            intro l' t' n' hm
            exact h l' t' n' (List.mem_cons_of_mem _ hm))
          cases e with
          | none =>
              simp [renderEnumToks, runEnumBody, parseEnumDeclarationTokens,
                hcomma, specEnumValuesFrom, hrec (prev + 1)]
          | some tn =>
              obtain ⟨t, n⟩ := tn
              obtain ⟨hnum, hrange⟩ := h l t n (by simp)
              simp [renderEnumToks, runEnumBody, parseEnumDeclarationTokens,
                hequal, hcomma, hnum, hrange, specEnumValuesFrom, hrec n]

/-- C6: over any enum body that the member loop of `ParseEnum` parses
successfully, a member with no explicit value receives the previous member's
value plus one — the very first such member receives 0, because `last_value`
starts at −1 — a member with an explicit `= N` (a token the numeric-token
check resolves to an in-range `N`) receives `N`, and subsequent implicit
members continue from `N`. -/
theorem claim_C6_enum_values (cd : List (String × Int))
    (ms : List (String × Option (String × Int)))
    (h : ∀ l t n, (l, some (t, n)) ∈ ms →
      isNumericToken cd t = (true, n) ∧ toInt32 n = n) :
    runEnumBody cd (renderEnumToks ms) (-1) false =
      some (specEnumValuesFrom (-1) ms) :=
  runEnumBody_renders cd ms h (-1)

/-- Witness for C6: the body `Hebei, Anhui = 9, Beijing, Zhejiang` yields
values 0, 9, 10, 11. -/
theorem claim_C6_enum_values_witness :
    runEnumBody [] (renderEnumToks exC6Body) (-1) false =
      some [("Hebei", 0), ("Anhui", 9), ("Beijing", 10), ("Zhejiang", 11)] := by
  have h := claim_C6_enum_values [] exC6Body (by
    intro l t n hm
    simp [exC6Body] at hm
    obtain ⟨h1, h2, h3⟩ := hm
    subst h2; subst h3
    exact ⟨by decide, by decide⟩)
  simpa [exC6Body, specEnumValuesFrom] using h

/-- C7: whenever the decoder renders a field whose type is a registered enum,
the emitted third component is the label of the first `(label, value)` pair
whose value equals the decoded integer — `resolveEnumLabel` is exactly a
first-match search, `"Unknown"` when none matches — and on the enum
`Anhui=1, Beijing=9, Shanghai=10, Zhejiang=33` the integer 9 resolves to
`Beijing` while 5 resolves to `Unknown`. -/
theorem claim_C7_enum_resolution :
    (∀ (ed : List (String × List (String × Int))) (buf : List Nat) (p : Nat)
       (v : VariableDeclaration) (enums : List (String × Int)),
      lookupA ed v.data_type = some enums →
      (printVarValue ed buf p v false).1.tail =
        some (", " ++
          resolveEnumLabel enums (printVarValue ed buf p v false).1.dec)) ∧
    (∀ (enums : List (String × Int)) (val : Int),
      resolveEnumLabel enums val =
        ((enums.find? (fun pr => pr.2 == val)).map Prod.fst).getD "Unknown") ∧
    resolveEnumLabel homeEnums 9 = "Beijing" ∧
    resolveEnumLabel homeEnums 5 = "Unknown" ∧
    (printVarValue [("Home", homeEnums)] [9, 0, 0, 0] 0
      ⟨"Home", "home", 0, false, 4⟩ false).1 =
      ⟨9, "0x00000009", some ", Beijing"⟩ ∧
    (printVarValue [("Home", homeEnums)] [5, 0, 0, 0] 0
      ⟨"Home", "home", 0, false, 4⟩ false).1 =
      ⟨5, "0x00000005", some ", Unknown"⟩ := by
  refine ⟨?_, ?_, by decide, by decide, by decide, by decide⟩
  · intro ed buf p v enums h
    simp [printVarValue, h]
  · intro enums val
    induction enums with
    | nil => simp [resolveEnumLabel, List.find?]
    | cons hd t ih =>
        obtain ⟨nm, value⟩ := hd
        by_cases hv : val = value
        · subst hv; simp [resolveEnumLabel, List.find?]
        · have hb : (value == val) = false := by
            simp [beq_eq_false_iff_ne, Ne.symm hv]
          simp [resolveEnumLabel, List.find?, hv, hb, ih]

/-- Witness for C7: decoding the 4 bytes `09 00 00 00` against the
registered enum `Home` emits the label component resolved from the decoded
integer. -/
theorem claim_C7_enum_resolution_witness :
    (printVarValue [("Home", homeEnums)] [9, 0, 0, 0] 0
      ⟨"Home", "home", 0, false, 4⟩ false).1.tail =
      some (", " ++ resolveEnumLabel homeEnums
        (printVarValue [("Home", homeEnums)] [9, 0, 0, 0] 0
          ⟨"Home", "home", 0, false, 4⟩ false).1.dec) :=
  claim_C7_enum_resolution.1 [("Home", homeEnums)] [9, 0, 0, 0] 0
    ⟨"Home", "home", 0, false, 4⟩ homeEnums (by decide)

/-- C8: the claim fails on the code.  On `#define ZERO 0` the numeric-token
check computes `strtol("0") = 0`, treats the zero result as "no valid
conversion", finds no constant named `"0"`, and rejects the line: the
constant map stays empty and `ZERO` is never registered, although the claim
requires every literal integer — including 0 — to be registered.  A nonzero
literal (`#define FIVE 5`) is registered as the claim describes. -/
theorem claim_C8_counterexample :
    parsePreProcDefine [] (splitLineIntoTokens "define ZERO 0") = some [] ∧
    lookupA ((parsePreProcDefine []
      (splitLineIntoTokens "define ZERO 0")).getD []) "ZERO" = none ∧
    isNumericToken [] "0" = (false, 0) ∧
    strtol0 "0" = 0 ∧
    parsePreProcDefine [] (splitLineIntoTokens "define FIVE 5") =
      some [("FIVE", 5)] := by
  refine ⟨by decide, by decide, by decide, by decide, by decide⟩

/-- C10: a scalar field whose declared type is exactly `char` and whose
decoded integer is nonzero gets a third output component — a comma and the
value as a quoted character — while a zero-valued `char` and any non-char,
non-enum scalar get no third component (the registry hypothesis rules out
the never-occurring case of an enum registered under the name `char`). -/
theorem claim_C10_char_rendering :
    (∀ (ed : List (String × List (String × Int))) (buf : List Nat) (p : Nat)
       (v : VariableDeclaration) (iu : Bool),
      v.data_type = "char" → lookupA ed "char" = none →
      ((printVarValue ed buf p v iu).1.dec ≠ 0 →
        (printVarValue ed buf p v iu).1.tail =
          some (", \x27" ++
            String.mk [charOfInt (printVarValue ed buf p v iu).1.dec] ++
            "\x27")) ∧
      ((printVarValue ed buf p v iu).1.dec = 0 →
        (printVarValue ed buf p v iu).1.tail = none)) ∧
    (∀ (ed : List (String × List (String × Int))) (buf : List Nat) (p : Nat)
       (v : VariableDeclaration) (iu : Bool),
      v.data_type ≠ "char" → lookupA ed v.data_type = none →
      (printVarValue ed buf p v iu).1.tail = none) ∧
    (printVarValue [] [66] 0 ⟨"char", "c", 0, false, 1⟩ false).1.tail =
      some ", \x27B\x27" ∧
    (printVarValue [] [0] 0 ⟨"char", "c", 0, false, 1⟩ false).1.tail = none ∧
    (printVarValue [] [66, 0, 0, 0] 0 ⟨"int", "i", 0, false, 4⟩ false).1.tail =
      none := by
  refine ⟨?_, ?_, by decide, by decide, by decide⟩
  · intro ed buf p v iu hchar hlook
    constructor
    · intro hdec
      simp [printVarValue, hchar, hlook] at hdec ⊢
      simp [hdec]
    · intro hdec
      simp [printVarValue, hchar, hlook] at hdec ⊢
      simp [hdec]
  · intro ed buf p v iu hchar hlook
    simp [printVarValue, hchar, hlook]

/-- Witness for C10: the nonzero char byte 66 gets the quoted-char
component. -/
theorem claim_C10_char_rendering_witness :
    (printVarValue [] [66] 0 ⟨"char", "c", 0, false, 1⟩ false).1.tail =
      some (", \x27" ++
        String.mk [charOfInt
          (printVarValue [] [66] 0 ⟨"char", "c", 0, false, 1⟩ false).1.dec] ++
        "\x27") :=
  (claim_C10_char_rendering.1 [] [66] 0 ⟨"char", "c", 0, false, 1⟩ false
    rfl rfl).1 (by decide)

theorem parseRun_visited (fs : String → Option (List HeaderStmt))
    (fuel : Nat) (st : ParserFileState) (file : String)
    (h : lookupA st.headerFiles file = some true) :
    parseRun fs fuel (.file file) st = st := by
  cases fuel with
  | zero => simp [parseRun]
  | succ f => simp [parseRun, h]

theorem parseRun_preserves_flag :
    ∀ (fuel : Nat) (fs : String → Option (List HeaderStmt)) (job : ParseJob)
      (st : ParserFileState) (g : String),
      lookupA st.headerFiles g = some true →
      lookupA (parseRun fs fuel job st).headerFiles g = some true := by
  intro fuel
  induction fuel with
  | zero =>
      intro fs job st g h
      simpa [parseRun] using h
  | succ f ih =>
      intro fs job st g h
      cases job with
      | file fl =>
          by_cases h1 : lookupA st.headerFiles fl = some true
          · simpa [parseRun, h1] using h
          · cases hfs : fs fl with
            | none => simpa [parseRun, h1, hfs] using h
            | some l =>
                have hmark : lookupA (setA st.headerFiles fl true) g =
                    some true := by
                  by_cases hg : fl = g
                  · subst hg; exact lookupA_setA_self _ _ _
                  · rw [lookupA_setA_ne _ _ _ _ hg]; exact h
                simpa [parseRun, h1, hfs] using
                  ih fs (.stmts l)
                    { st with headerFiles := setA st.headerFiles fl true } g hmark
      | stmts l =>
          cases l with
          | nil => simpa [parseRun] using h
          | cons stmt rest =>
              cases stmt with
              | includeQuoted fl =>
                  simp only [parseRun]
                  exact ih fs (.stmts rest) _ g (ih fs (.file fl) st g h)
              | registerType nm sz =>
                  simp only [parseRun]
                  exact ih fs (.stmts rest) _ g (by simpa using h)

/-- C9: `ParseFile` is idempotent per path — running it a second time on a
path already parsed returns the state of the first run unchanged (visited
map and registry alike), because the path is flagged in `header_files_`
before its contents are parsed — and on the circular include pair
`a.h ↔ b.h` the recursion terminates after visiting each file once: any
budget beyond the files and statements actually processed yields the
identical final state, in which both files are flagged and both types are
registered exactly once. -/
theorem claim_C9_parse_idempotent :
    (∀ (fs : String → Option (List HeaderStmt)) (fuel : Nat)
       (st : ParserFileState) (file : String),
      parseFile fs (fuel + 1) (parseFile fs (fuel + 1) st file) file =
        parseFile fs (fuel + 1) st file) ∧
    (∀ n : Nat, parseFile circFS (n + 6) initPFS "a.h" =
      parseFile circFS 6 initPFS "a.h") ∧
    lookupA (parseFile circFS 6 initPFS "a.h").typeSizes "A" = some 4 ∧
    lookupA (parseFile circFS 6 initPFS "a.h").typeSizes "B" = some 8 ∧
    lookupA (parseFile circFS 6 initPFS "a.h").headerFiles "a.h" = some true ∧
    lookupA (parseFile circFS 6 initPFS "a.h").headerFiles "b.h" = some true := by
  refine ⟨?_, fun n => rfl, by decide, by decide, by decide, by decide⟩
  intro fs fuel st file
  show parseRun fs (fuel + 1) (.file file)
      (parseRun fs (fuel + 1) (.file file) st) =
    parseRun fs (fuel + 1) (.file file) st
  by_cases h1 : lookupA st.headerFiles file = some true
  · have e : parseRun fs (fuel + 1) (.file file) st = st := by
      simp [parseRun, h1]
    rw [e]; exact e
  · cases hfs : fs file with
    | none =>
        have e : parseRun fs (fuel + 1) (.file file) st = st := by
          simp [parseRun, h1, hfs]
        rw [e]; exact e
    | some l =>
        have e : parseRun fs (fuel + 1) (.file file) st =
            parseRun fs fuel (.stmts l)
              { st with headerFiles := setA st.headerFiles file true } := by
          simp [parseRun, h1, hfs]
        have hflag : lookupA (parseRun fs (fuel + 1) (.file file) st).headerFiles
            file = some true := by
          rw [e]
          exact parseRun_preserves_flag fuel fs (.stmts l) _ file
            (lookupA_setA_self _ _ _)
        exact parseRun_visited fs (fuel + 1) _ file hflag
